import Mathlib

/-!
Verification of the crossing-detection core of pyknotid
(`pyknotid/spacecurves/helpers.py`) and its direction sampler
(`pyknot2/spacecurves/rotation.py`).

Floating-point arithmetic of the source is modelled over an ordered
field: exact rational arithmetic (`ℚ`) where the source uses only
field operations and comparisons, and the reals (`ℝ`) where the
source calls `sqrt`, `arccos`, `cos`, `sin` or `floor`.
-/

namespace Pyknot

/-- `cross_product` from helpers.py: 2D cross product `px*qy - py*qx`. -/
def cross_product {K : Type} [LinearOrderedField K] (px py qx qy : K) : K :=
  px * qy - py * qx

/-- `sign` from helpers.py: `1` if positive, `-1` if negative, else `0`. -/
def sign {K : Type} [LinearOrderedField K] (a : K) : K :=
  if 0 < a then 1 else if a < 0 then -1 else 0

/-- The expression the source assigns to `t` in `do_vectors_intersect`:
`cross_product(q - p, dq) / cross_product(dp, dq)` (the Cramer rule). -/
def cramer_t {K : Type} [LinearOrderedField K]
    (px py dpx dpy qx qy dqx dqy : K) : K :=
  cross_product (qx - px) (qy - py) dqx dqy / cross_product dpx dpy dqx dqy

/-- The expression the source assigns to `u` in `do_vectors_intersect`:
`cross_product(q - p, dp) / cross_product(dp, dq)` (the Cramer rule). -/
def cramer_u {K : Type} [LinearOrderedField K]
    (px py dpx dpy qx qy dqx dqy : K) : K :=
  cross_product (qx - px) (qy - py) dpx dpy / cross_product dpx dpy dqx dqy

/-- `do_vectors_intersect` from helpers.py.  Tests whether the segment
from `p` with displacement `dp` crosses the segment from `q` with
displacement `dq`, returning the flag and the fractional parameters.
The near-parallel branch (|cross dp dq| < 0.00001) returns `(false, 0, 0)`;
the other no-intersection exits return `(false, -1, -1)`. -/
def do_vectors_intersect {K : Type} [LinearOrderedField K]
    (px py dpx dpy qx qy dqx dqy : K) : Bool × K × K :=
  if |cross_product dpx dpy dqx dqy| < 1/100000 then (false, 0, 0)
  else
    let t := cramer_t px py dpx dpy qx qy dqx dqy
    if t < 1 ∧ 0 < t then
      let u := cramer_u px py dpx dpy qx qy dqx dqy
      if u < 1 ∧ 0 < u then (true, t, u)
      else (false, -1, -1)
    else (false, -1, -1)

lemma cramer_solves_x {K : Type} [LinearOrderedField K]
    (px py dpx dpy qx qy dqx dqy : K)
    (hD : cross_product dpx dpy dqx dqy ≠ 0) :
    px + cramer_t px py dpx dpy qx qy dqx dqy * dpx =
      qx + cramer_u px py dpx dpy qx qy dqx dqy * dqx := by
  simp only [cramer_t, cramer_u, cross_product] at *
  field_simp
  ring

lemma cramer_solves_y {K : Type} [LinearOrderedField K]
    (px py dpx dpy qx qy dqx dqy : K)
    (hD : cross_product dpx dpy dqx dqy ≠ 0) :
    py + cramer_t px py dpx dpy qx qy dqx dqy * dpy =
      qy + cramer_u px py dpx dpy qx qy dqx dqy * dqy := by
  simp only [cramer_t, cramer_u, cross_product] at *
  field_simp
  ring

/-- C3: `do_vectors_intersect` reports an intersection exactly when the
2D cross product of the displacements has magnitude at least the fixed
tolerance 1/100000 and the two Cramer parameters lie strictly inside
(0, 1); in that case the returned parameters are the Cramer solutions
and satisfy `p + t·dp = q + u·dq` in both coordinates, so intersections
at `t` or `u` equal to 0 or 1 are excluded. -/
theorem C3_do_vectors_intersect_iff_cramer (px py dpx dpy qx qy dqx dqy : ℚ) :
    ((do_vectors_intersect px py dpx dpy qx qy dqx dqy).1 = true ↔
      (1/100000 ≤ |cross_product dpx dpy dqx dqy| ∧
        0 < cramer_t px py dpx dpy qx qy dqx dqy ∧
        cramer_t px py dpx dpy qx qy dqx dqy < 1 ∧
        0 < cramer_u px py dpx dpy qx qy dqx dqy ∧
        cramer_u px py dpx dpy qx qy dqx dqy < 1)) ∧
    ((do_vectors_intersect px py dpx dpy qx qy dqx dqy).1 = true →
      ((do_vectors_intersect px py dpx dpy qx qy dqx dqy).2.1 =
          cramer_t px py dpx dpy qx qy dqx dqy ∧
        (do_vectors_intersect px py dpx dpy qx qy dqx dqy).2.2 =
          cramer_u px py dpx dpy qx qy dqx dqy ∧
        px + (do_vectors_intersect px py dpx dpy qx qy dqx dqy).2.1 * dpx =
          qx + (do_vectors_intersect px py dpx dpy qx qy dqx dqy).2.2 * dqx ∧
        py + (do_vectors_intersect px py dpx dpy qx qy dqx dqy).2.1 * dpy =
          qy + (do_vectors_intersect px py dpx dpy qx qy dqx dqy).2.2 * dqy)) := by
  by_cases h1 : |cross_product dpx dpy dqx dqy| < 1/100000
  · have hres : do_vectors_intersect px py dpx dpy qx qy dqx dqy =
        (false, 0, 0) := by
      simp only [do_vectors_intersect, h1, if_true]
    rw [hres]
    exact ⟨⟨fun h => by simp at h,
        fun h => absurd h.1 (not_le.mpr h1)⟩,
      fun h => by simp at h⟩
  · by_cases h2 : cramer_t px py dpx dpy qx qy dqx dqy < 1 ∧
        0 < cramer_t px py dpx dpy qx qy dqx dqy
    · by_cases h3 : cramer_u px py dpx dpy qx qy dqx dqy < 1 ∧
          0 < cramer_u px py dpx dpy qx qy dqx dqy
      · have hres : do_vectors_intersect px py dpx dpy qx qy dqx dqy =
            (true, cramer_t px py dpx dpy qx qy dqx dqy,
              cramer_u px py dpx dpy qx qy dqx dqy) := by
          simp only [do_vectors_intersect, h1, if_false]
          rw [if_pos h2, if_pos h3]
        rw [hres]
        have hD : cross_product dpx dpy dqx dqy ≠ 0 := by
          intro h0
          apply h1
          rw [h0]
          norm_num
        refine ⟨by simp only [true_iff]; exact ⟨not_lt.mp h1, h2.2, h2.1, h3.2, h3.1⟩, ?_⟩
        intro _
        exact ⟨rfl, rfl,
          cramer_solves_x px py dpx dpy qx qy dqx dqy hD,
          cramer_solves_y px py dpx dpy qx qy dqx dqy hD⟩
      · have hres : do_vectors_intersect px py dpx dpy qx qy dqx dqy =
            (false, -1, -1) := by
          simp only [do_vectors_intersect, h1, if_false]
          rw [if_pos h2, if_neg h3]
        rw [hres]
        refine ⟨⟨fun h => by simp at h, ?_⟩, fun h => by simp at h⟩
        rintro ⟨-, -, -, hu0, hu1⟩
        exact absurd ⟨hu1, hu0⟩ h3
    · have hres : do_vectors_intersect px py dpx dpy qx qy dqx dqy =
          (false, -1, -1) := by
        simp only [do_vectors_intersect, h1, if_false]
        rw [if_neg h2]
      rw [hres]
      refine ⟨⟨fun h => by simp at h, ?_⟩, fun h => by simp at h⟩
      rintro ⟨-, ht0, ht1, -, -⟩
      exact absurd ⟨ht1, ht0⟩ h2

/-- Witness for C3 at a concrete crossing: p = (0,0), dp = (1,1),
q = (0,1), dq = (1,-1) cross at t = u = 1/2. -/
theorem C3_witness :
    (do_vectors_intersect (0:ℚ) 0 1 1 0 1 1 (-1)).1 = true ∧
    (0:ℚ) + (do_vectors_intersect (0:ℚ) 0 1 1 0 1 1 (-1)).2.1 * 1 =
      0 + (do_vectors_intersect (0:ℚ) 0 1 1 0 1 1 (-1)).2.2 * 1 := by
  have htrue : (do_vectors_intersect (0:ℚ) 0 1 1 0 1 1 (-1)).1 = true := by
    norm_num [do_vectors_intersect, cramer_t, cramer_u, cross_product]
  have h := C3_do_vectors_intersect_iff_cramer (0:ℚ) 0 1 1 0 1 1 (-1)
  exact ⟨htrue, (h.2 htrue).2.2.1⟩

/-- C4 counterexample: for the parallel segments p = (0,0), dp = (1,0),
q = (0,1), dq = (1,0) the near-parallel branch returns `(false, 0, 0)`,
not the sentinel `(false, -1, -1)`. -/
theorem C4_counterexample :
    do_vectors_intersect (0:ℚ) 0 1 0 0 1 1 0 = (false, 0, 0) ∧
    (false, (0:ℚ), (0:ℚ)) ≠ (false, (-1:ℚ), (-1:ℚ)) := by
  constructor
  · norm_num [do_vectors_intersect, cross_product]
  · intro h
    have h2 := congrArg (fun r => r.2.1) h
    norm_num at h2

/-- C4 amended: when `do_vectors_intersect` reports no intersection it
returns `(false, -1, -1)`, except in the near-parallel case
(|cross dp dq| < 1/100000) where it returns `(false, 0, 0)`. -/
theorem C4_no_intersection_sentinel (px py dpx dpy qx qy dqx dqy : ℚ)
    (h : (do_vectors_intersect px py dpx dpy qx qy dqx dqy).1 = false) :
    do_vectors_intersect px py dpx dpy qx qy dqx dqy =
      if |cross_product dpx dpy dqx dqy| < 1/100000 then (false, 0, 0)
      else (false, -1, -1) := by
  by_cases h1 : |cross_product dpx dpy dqx dqy| < 1/100000
  · rw [if_pos h1]
    simp only [do_vectors_intersect, h1, if_true]
  · rw [if_neg h1]
    by_cases h2 : cramer_t px py dpx dpy qx qy dqx dqy < 1 ∧
        0 < cramer_t px py dpx dpy qx qy dqx dqy
    · by_cases h3 : cramer_u px py dpx dpy qx qy dqx dqy < 1 ∧
          0 < cramer_u px py dpx dpy qx qy dqx dqy
      · exfalso
        have : (do_vectors_intersect px py dpx dpy qx qy dqx dqy).1 = true := by
          simp only [do_vectors_intersect, h1, if_false]
          rw [if_pos h2, if_pos h3]
        rw [this] at h
        simp at h
      · simp only [do_vectors_intersect, h1, if_false]
        rw [if_pos h2, if_neg h3]
    · simp only [do_vectors_intersect, h1, if_false]
      rw [if_neg h2]

/-- Witness for C4 at the concrete parallel input. -/
theorem C4_witness :
    (do_vectors_intersect (0:ℚ) 0 1 0 0 1 1 0).1 = false ∧
    do_vectors_intersect (0:ℚ) 0 1 0 0 1 1 0 = (false, 0, 0) := by
  have hfalse : (do_vectors_intersect (0:ℚ) 0 1 0 0 1 1 0).1 = false := by
    norm_num [do_vectors_intersect, cross_product]
  have h := C4_no_intersection_sentinel (0:ℚ) 0 1 0 0 1 1 0 hfalse
  rw [if_pos (by norm_num [cross_product])] at h
  exact ⟨hfalse, h⟩

/-! ## Direction sampler (`pyknot2/spacecurves/rotation.py`) -/

/-- numpy `%` on reals with a positive modulus: `x - y * ⌊x / y⌋`. -/
noncomputable def fmod (x y : ℝ) : ℝ := x - y * (⌊x / y⌋ : ℤ)

lemma fmod_mem_Ico (x y : ℝ) (hy : 0 < y) : 0 ≤ fmod x y ∧ fmod x y < y := by
  have hrepr : fmod x y = y * Int.fract (x / y) := by
    unfold fmod Int.fract
    field_simp
  rw [hrepr]
  constructor
  · exact mul_nonneg hy.le (Int.fract_nonneg _)
  · calc y * Int.fract (x / y) < y * 1 :=
          (mul_lt_mul_left hy).mpr (Int.fract_lt_one _)
    _ = y := mul_one y

/-- The quantity `h_k = -1 + 2(k-1)/(number-1)` from `get_rotation_angles`,
for the 1-based index `k`. -/
noncomputable def h_val (number k : ℕ) : ℝ := -1 + (2 * ((k : ℝ) - 1)) / ((number : ℝ) - 1)

/-- The longitude sequence of `get_rotation_angles` before the final
fix-up: `phi_1 = 0` and
`phi_k = (phi_(k-1) + 3.6/sqrt(number) * 1/sqrt(1 - h_k^2)) % 2π`. -/
noncomputable def phi_seq (number : ℕ) : ℕ → ℝ
  | 0 => 0
  | 1 => 0
  | (k + 2) =>
    fmod (phi_seq number (k + 1) +
        (36/10) / Real.sqrt number * (1 / Real.sqrt (1 - (h_val number (k + 2))^2)))
      (2 * Real.pi)

/-- The latitude assigned to 1-based index `k` by `get_rotation_angles`:
`arccos(-1)` for the first point, `arccos(h_k)` afterwards. -/
noncomputable def theta_val (number k : ℕ) : ℝ :=
  if k = 1 then Real.arccos (-1) else Real.arccos (h_val number k)

/-- `get_rotation_angles` from rotation.py.  Returns the list of
(theta, phi) pairs for `number` spiral points; the final longitude is
overwritten with 0 (source line `angles[-1, 1] = 0.`).  `number = 0`
fails in the source (out-of-bounds write to an empty array), modelled
as `none`. -/
noncomputable def get_rotation_angles (number : ℕ) : Option (List (ℝ × ℝ)) :=
  if number = 0 then none
  else some ((List.range number).map (fun j =>
    (theta_val number (j + 1),
      if j + 1 = number then 0 else phi_seq number (j + 1))))

lemma phi_seq_mem (number k : ℕ) :
    0 ≤ phi_seq number k ∧ phi_seq number k < 2 * Real.pi := by
  have h2pi : (0:ℝ) < 2 * Real.pi := by positivity
  match k with
  | 0 => exact ⟨le_refl 0, h2pi⟩
  | 1 => exact ⟨le_refl 0, h2pi⟩
  | (k + 2) => exact fmod_mem_Ico _ _ h2pi

/-- C6: for every `count ≥ 2`, `get_rotation_angles count` succeeds and
returns exactly `count` (latitude, longitude) pairs with every latitude
in [0, π] and every longitude in [0, 2π); the function is a pure
function of `count`, so two calls with the same `count` coincide. -/
theorem C6_get_rotation_angles_spec (number : ℕ) (h : 2 ≤ number) :
    ∃ l, get_rotation_angles number = some l ∧
      l.length = number ∧
      (∀ p ∈ l, (0 ≤ p.1 ∧ p.1 ≤ Real.pi) ∧ (0 ≤ p.2 ∧ p.2 < 2 * Real.pi)) ∧
      get_rotation_angles number = get_rotation_angles number := by
  have hne : number ≠ 0 := by omega
  refine ⟨_, by rw [get_rotation_angles, if_neg hne], ?_, ?_, rfl⟩
  · rw [List.length_map, List.length_range]
  · intro p hp
    rw [List.mem_map] at hp
    obtain ⟨j, -, rfl⟩ := hp
    refine ⟨⟨?_, ?_⟩, ?_⟩
    · unfold theta_val
      split <;> exact Real.arccos_nonneg _
    · unfold theta_val
      split <;> exact Real.arccos_le_pi _
    · dsimp only
      split
      · exact ⟨le_refl 0, by positivity⟩
      · exact phi_seq_mem number (j + 1)

/-- Witness for C6 at `count = 3`. -/
theorem C6_witness :
    ∃ l, get_rotation_angles 3 = some l ∧
      l.length = 3 ∧
      (∀ p ∈ l, (0 ≤ p.1 ∧ p.1 ≤ Real.pi) ∧ (0 ≤ p.2 ∧ p.2 < 2 * Real.pi)) ∧
      get_rotation_angles 3 = get_rotation_angles 3 :=
  C6_get_rotation_angles_spec 3 (by norm_num)

/-- C8 counterexample: `get_rotation_angles 1` is not rejected — it
silently returns the single degenerate pair (π, 0). -/
theorem C8_counterexample : get_rotation_angles 1 = some [(Real.pi, 0)] := by
  rw [get_rotation_angles, if_neg (by norm_num)]
  simp [List.range_succ, theta_val, Real.arccos_neg_one]

/-- C8 amended: `get_rotation_angles` performs no entry validation:
`count = 1` silently returns the degenerate single pair (π, 0), and
only `count = 0` fails (an out-of-bounds write, modelled as `none`),
not an input check. -/
theorem C8_no_validation :
    get_rotation_angles 0 = none ∧ get_rotation_angles 1 = some [(Real.pi, 0)] := by
  constructor
  · rw [get_rotation_angles, if_pos rfl]
  · rw [get_rotation_angles, if_neg (by norm_num)]
    simp [List.range_succ, theta_val, Real.arccos_neg_one]

/-! ## Crossing engine (`find_crossings` and `raw_cross_loop`) -/

/-- A 3D point (x, y, z). -/
abbrev P3 : Type := ℝ × ℝ × ℝ

/-- A crossing-record row of the output buffer:
(position on this strand, position on the other strand, sign,
signed direction). -/
abbrev Row : Type := ℝ × ℝ × ℝ × ℝ

/-- Componentwise addition of rows. -/
def row_add (a b : Row) : Row :=
  (a.1 + b.1, a.2.1 + b.2.1, a.2.2.1 + b.2.2.1, a.2.2.2 + b.2.2.2)

/-- numpy `crossings[i] += r` on the output buffer. -/
def add_at (l : List Row) (i : ℕ) (r : Row) : List Row :=
  l.set i (row_add (l.getD i (0, 0, 0, 0)) r)

/-- The inner `while` of the default jump mode of `find_crossings`:
starting at index `i` with accumulated length `dtrav`, it repeatedly
reads `segment_lengths[i]` and advances while `dtrav < bound` and
`i < plen` (`bound` is `distance - max_segment_length`, `plen` is
`len(points)`).  Returns the final index, the iteration count
(source variable `jumps`), and the list of indices at which
`segment_lengths` was read. -/
noncomputable def accumulate_jumps (sls : List ℝ) (plen : ℕ) (bound : ℝ)
    (i : ℕ) (dtrav : ℝ) : ℕ × ℕ × List ℕ :=
  if h : dtrav < bound ∧ i < plen then
    let r := accumulate_jumps sls plen bound (i + 1) (dtrav + sls.getD i 0)
    (r.1, r.2.1 + 1, i :: r.2.2)
  else (i, 0, [])
termination_by plen - i
decreasing_by
  omega

lemma accumulate_jumps_fst (sls : List ℝ) (plen : ℕ) (bound : ℝ)
    (i : ℕ) (dtrav : ℝ) :
    (accumulate_jumps sls plen bound i dtrav).1 =
      i + (accumulate_jumps sls plen bound i dtrav).2.1 := by
  induction i, dtrav using accumulate_jumps.induct sls plen bound with
  | case1 i dtrav h ih =>
    rw [accumulate_jumps, dif_pos h]
    dsimp only
    omega
  | case2 i dtrav h =>
    rw [accumulate_jumps, dif_neg h]
    simp

/-- The loop state of `find_crossings`: the comparison index `i`, the
`already_jumped` flag, the output buffer, and — as instrumentation for
the memory-safety claim — the indices at which `segment_lengths` has
been read so far. -/
structure FCState where
  i : ℕ
  aj : Bool
  crossings : List Row
  reads : List ℕ

/-- The `distance` variable of the source: the planar straight-line distance
from the query point `v` to comparison point `i`. -/
noncomputable def query_distance (v : P3) (points : List P3) (i : ℕ) : ℝ :=
  Real.sqrt ((v.1 - (points.getD i (0, 0, 0)).1)^2 +
    (v.2.1 - (points.getD i (0, 0, 0)).2.1)^2)

/-- One iteration of the `while i < len(points) - 1` loop of
`find_crossings` from helpers.py. -/
noncomputable def fcStep (v dv : P3) (points : List P3) (sls : List ℝ)
    (current_index comparison_index msl jump_mode : ℤ) (s : FCState) : FCState :=
  let point := points.getD s.i (0, 0, 0)
  let distance := query_distance v points s.i
  if distance < 2 * (msl : ℝ) ∨ s.aj = true then
    let next_point := points.getD (s.i + 1) (0, 0, 0)
    let jump_x := next_point.1 - point.1
    let jump_y := next_point.2.1 - point.2.1
    let jump_z := next_point.2.2 - point.2.2
    let res := do_vectors_intersect v.1 v.2.1 dv.1 dv.2.1
      point.1 point.2.1 jump_x jump_y
    if res.1 = true then
      let crossing_sign := sign ((v.2.2 + res.2.1 * dv.2.2) -
        (point.2.2 + res.2.2 * jump_z))
      let crossing_direction := sign (cross_product dv.1 dv.2.1 jump_x jump_y)
      let c1 := add_at s.crossings s.i
        ((current_index : ℝ) + res.2.1,
          (comparison_index : ℝ) + res.2.2 + (s.i : ℝ),
          crossing_sign, crossing_sign * crossing_direction)
      let c2 := add_at c1 s.i
        ((comparison_index : ℝ) + res.2.2 + (s.i : ℝ),
          (current_index : ℝ) + res.2.1,
          -1 * crossing_sign, crossing_sign * crossing_direction)
      { i := s.i + 1, aj := false, crossings := c2, reads := s.reads }
    else
      { i := s.i + 1, aj := false, crossings := s.crossings, reads := s.reads }
  else if jump_mode = 3 then
    { i := s.i + 1, aj := true, crossings := s.crossings, reads := s.reads }
  else if jump_mode = 2 then
    let num_jumps : ℤ := ⌊distance / (msl : ℝ)⌋ - 1
    let clamped : ℤ := if num_jumps < 1 then 1 else num_jumps
    { i := s.i + clamped.toNat, aj := true, crossings := s.crossings,
      reads := s.reads }
  else
    let r := accumulate_jumps sls points.length (distance - (msl : ℝ)) s.i 0
    let i2 := if 1 < r.2.1 then r.1 - 2 else r.1
    { i := i2, aj := true, crossings := s.crossings,
      reads := s.reads ++ r.2.2 }

lemma fcStep_i_lt (v dv : P3) (points : List P3) (sls : List ℝ)
    (ci compi msl jm : ℤ) (s : FCState) (h : s.i < points.length - 1) :
    2 * (points.length - (fcStep v dv points sls ci compi msl jm s).i) +
      (if (fcStep v dv points sls ci compi msl jm s).aj then 0 else 1) <
    2 * (points.length - s.i) + (if s.aj then 0 else 1) := by
  by_cases h1 : query_distance v points s.i < 2 * (msl : ℝ) ∨ s.aj = true
  · have hstep : (fcStep v dv points sls ci compi msl jm s).i = s.i + 1 ∧
        (fcStep v dv points sls ci compi msl jm s).aj = false := by
      unfold fcStep
      dsimp only
      rw [if_pos h1]
      refine ⟨?_, ?_⟩ <;> split <;> rfl
    rw [hstep.1, hstep.2]
    cases hb : s.aj <;> simp [hb] <;> omega
  · have haj : s.aj = false := by
      cases hb : s.aj
      · rfl
      · exact absurd (Or.inr hb) h1
    by_cases h2 : jm = 3
    · have hstep : (fcStep v dv points sls ci compi msl jm s).i = s.i + 1 ∧
          (fcStep v dv points sls ci compi msl jm s).aj = true := by
        unfold fcStep
        dsimp only
        rw [if_neg h1, if_pos h2]
        exact ⟨rfl, rfl⟩
      rw [hstep.1, hstep.2, haj]
      simp only [Bool.false_eq_true, if_false, if_true]
      omega
    · by_cases h3 : jm = 2
      · have hstep : (fcStep v dv points sls ci compi msl jm s).i =
            s.i + (if (⌊query_distance v points s.i / (msl : ℝ)⌋ - 1) < 1 then 1
              else ⌊query_distance v points s.i / (msl : ℝ)⌋ - 1).toNat ∧
            (fcStep v dv points sls ci compi msl jm s).aj = true := by
          unfold fcStep
          dsimp only
          rw [if_neg h1, if_neg h2, if_pos h3]
          exact ⟨rfl, rfl⟩
        rw [hstep.1, hstep.2, haj]
        simp only [Bool.false_eq_true, if_false, if_true]
        have hone : (1:ℤ) ≤ (if (⌊query_distance v points s.i / (msl : ℝ)⌋ - 1) < 1
            then 1 else ⌊query_distance v points s.i / (msl : ℝ)⌋ - 1) := by
          split <;> omega
        omega
      · have hfst := accumulate_jumps_fst sls points.length
          (query_distance v points s.i - (msl : ℝ)) s.i 0
        have hstep : (fcStep v dv points sls ci compi msl jm s).i =
            (if 1 < (accumulate_jumps sls points.length
                (query_distance v points s.i - (msl : ℝ)) s.i 0).2.1 then
              (accumulate_jumps sls points.length
                (query_distance v points s.i - (msl : ℝ)) s.i 0).1 - 2
            else (accumulate_jumps sls points.length
                (query_distance v points s.i - (msl : ℝ)) s.i 0).1) ∧
            (fcStep v dv points sls ci compi msl jm s).aj = true := by
          unfold fcStep
          dsimp only
          rw [if_neg h1, if_neg h2, if_neg h3]
          exact ⟨rfl, rfl⟩
        rw [hstep.1, hstep.2, haj]
        simp only [Bool.false_eq_true, if_false, if_true]
        split <;> omega

/-- The `while i < len(points) - 1` loop of `find_crossings`, iterated
to completion from state `s`. -/
noncomputable def fcLoop (v dv : P3) (points : List P3) (sls : List ℝ)
    (ci compi msl jm : ℤ) (s : FCState) : FCState :=
  if _h : s.i < points.length - 1 then
    fcLoop v dv points sls ci compi msl jm (fcStep v dv points sls ci compi msl jm s)
  else s
termination_by 2 * (points.length - s.i) + (if s.aj then 0 else 1)
decreasing_by
  exact fcStep_i_lt v dv points sls ci compi msl jm s _h

/-- The full run of `find_crossings` from helpers.py, keeping the whole
final state (including the instrumented read-index list). -/
noncomputable def fcRun (v dv : P3) (points : List P3) (sls : List ℝ)
    (ci compi msl jm : ℤ) : FCState :=
  fcLoop v dv points sls ci compi msl jm
    { i := 0, aj := false,
      crossings := List.replicate points.length (0, 0, 0, 0), reads := [] }

/-- `find_crossings` from helpers.py: the returned `crossings` buffer,
one row per comparison point, initialised to zero. -/
noncomputable def find_crossings (v dv : P3) (points : List P3) (sls : List ℝ)
    (ci compi msl jm : ℤ) : List Row :=
  (fcRun v dv points sls ci compi msl jm).crossings

/-- The even-indexed entries of a list (numpy `a[::2]`). -/
def even_entries {α : Type} : List α → List α
  | [] => []
  | [a] => [a]
  | a :: _ :: rest => a :: even_entries rest

/-- The odd-indexed entries of a list (numpy `a[1::2]`). -/
def odd_entries {α : Type} : List α → List α
  | [] => []
  | _ :: rest => even_entries rest

/-- `raw_cross_loop` from helpers.py.  Iterates over every ordered pair
`line_index < other_index` of polylines and every query segment of the
first line; the source assigns `first_crossings`/`sec_crossings` inside
the innermost loop and returns them after all loops, so the model
carries an `Option` that each non-empty `find_crossings` result
overwrites (`none` when the variables were never assigned, where the
source raises `NameError`). -/
noncomputable def raw_cross_loop (lines : List (List P3))
    (segment_lengths : List (List ℝ)) (msl jm : ℤ)
    (cumulative_lengths : List ℝ) (include_closures : Bool) :
    Option (List Row × List Row) :=
  (List.range lines.length).foldl (fun acc li =>
    let points := lines.getD li []
    (List.range (lines.length - (li + 1))).foldl (fun acc2 k =>
      let oi := li + 1 + k
      let other_line := lines.getD oi []
      let comparison_points :=
        if include_closures then other_line ++ other_line.take 1 else other_line
      let other_seg_lengths := segment_lengths.getD oi []
      let first_line_range :=
        if include_closures then List.range points.length
        else (List.range points.length).dropLast
      first_line_range.foldl (fun acc3 i =>
        let v0 := points.getD i (0, 0, 0)
        let pnext := points.getD ((i + 1) % points.length) (0, 0, 0)
        let dv : P3 := (pnext.1 - v0.1, pnext.2.1 - v0.2.1, pnext.2.2 - v0.2.2)
        let new_crossings := find_crossings v0 dv comparison_points
          other_seg_lengths (i : ℤ) 0 msl jm
        if new_crossings.length = 0 then acc3
        else
          some ((even_entries new_crossings).map (fun r =>
              (r.1 + cumulative_lengths.getD li 0,
                r.2.1 + cumulative_lengths.getD oi 0, r.2.2.1, r.2.2.2)),
            (odd_entries new_crossings).map (fun r =>
              (r.1 + cumulative_lengths.getD oi 0,
                r.2.1 + cumulative_lengths.getD li 0, r.2.2.1, r.2.2.2))))
        acc2) acc) none

/-! ## Concrete evaluations of the crossing engine -/

lemma dvi_X_eval : do_vectors_intersect (0:ℝ) 0 1 1 0 1 1 (-1) =
    (true, 1/2, 1/2) := by
  norm_num [do_vectors_intersect, cramer_t, cramer_u, cross_product]

lemma fc_step_X :
    fcStep (0, 0, 0) (1, 1, 0) [(0, 1, 1), (1, 0, 1)] [2] 0 0 10 1
      ⟨0, false, [(0, 0, 0, 0), (0, 0, 0, 0)], []⟩ =
    ⟨1, false, [(1, 1, 0, 2), (0, 0, 0, 0)], []⟩ := by
  norm_num [fcStep, query_distance, do_vectors_intersect, cramer_t, cramer_u,
    cross_product, sign, add_at, row_add, List.getD, List.set]

/-- Full evaluation of `find_crossings` on the single-crossing "X"
configuration: query segment from (0,0,0) towards (1,1,0), comparison
strand [(0,1,1), (1,0,1)]. -/
lemma fc_eval_first_segment :
    find_crossings (0, 0, 0) (1, 1, 0) [(0, 1, 1), (1, 0, 1)] [2] 0 0 10 1 =
      [(1, 1, 0, 2), (0, 0, 0, 0)] := by
  unfold find_crossings fcRun
  rw [fcLoop, dif_pos (by norm_num)]
  rw [show (List.replicate (List.length [((0:ℝ), (1:ℝ), (1:ℝ)), (1, 0, 1)])
      ((0:ℝ), (0:ℝ), (0:ℝ), (0:ℝ))) = [((0:ℝ), (0:ℝ), (0:ℝ), (0:ℝ)), (0, 0, 0, 0)]
    from by norm_num [List.replicate]]
  rw [fc_step_X]
  rw [fcLoop, dif_neg (by norm_num)]

lemma fc_step_X2 :
    fcStep (1, 1, 0) (1, 1, 0) [(0, 1, 1), (1, 0, 1)] [2] 1 0 10 1
      ⟨0, false, [(0, 0, 0, 0), (0, 0, 0, 0)], []⟩ =
    ⟨1, false, [(0, 0, 0, 0), (0, 0, 0, 0)], []⟩ := by
  norm_num [fcStep, query_distance, do_vectors_intersect, cramer_t, cramer_u,
    cross_product, sign, add_at, row_add, List.getD, List.set]

/-- Full evaluation of `find_crossings` for the second query segment of
the three-point strand, which misses the comparison strand. -/
lemma fc_eval_second_segment :
    find_crossings (1, 1, 0) (1, 1, 0) [(0, 1, 1), (1, 0, 1)] [2] 1 0 10 1 =
      [(0, 0, 0, 0), (0, 0, 0, 0)] := by
  unfold find_crossings fcRun
  rw [fcLoop, dif_pos (by norm_num)]
  rw [show (List.replicate (List.length [((0:ℝ), (1:ℝ), (1:ℝ)), (1, 0, 1)])
      ((0:ℝ), (0:ℝ), (0:ℝ), (0:ℝ))) = [((0:ℝ), (0:ℝ), (0:ℝ), (0:ℝ)), (0, 0, 0, 0)]
    from by norm_num [List.replicate]]
  rw [fc_step_X2]
  rw [fcLoop, dif_neg (by norm_num)]

/-- C1: on the "X" configuration there is exactly one true geometric
crossing (`do_vectors_intersect` reports true), but the returned buffer
holds no pair of mirrored records: both records are accumulated into
the same row `crossings[i]`, so the output is the single summed row
(1, 1, 0, 2) — equal position fields, sign field 0 — and every row of
the output has sign field 0. -/
theorem C1_mirrored_records_summed :
    (do_vectors_intersect (0:ℝ) 0 1 1 0 1 1 (-1)).1 = true ∧
    find_crossings (0, 0, 0) (1, 1, 0) [(0, 1, 1), (1, 0, 1)] [2] 0 0 10 1 =
      [(1, 1, 0, 2), (0, 0, 0, 0)] ∧
    ∀ r ∈ find_crossings (0, 0, 0) (1, 1, 0) [(0, 1, 1), (1, 0, 1)] [2] 0 0 10 1,
      r.2.2.1 = 0 := by
  refine ⟨by rw [dvi_X_eval], fc_eval_first_segment, ?_⟩
  rw [fc_eval_first_segment]
  intro r hr
  simp only [List.mem_cons, List.not_mem_nil, or_false] at hr
  rcases hr with h | h <;> rw [h]

/-- C5: on the same single-crossing input the row actually emitted by
`find_crossings` carries signed-direction field 2 (the sum of the two
intended records), which is outside {-1, 0, +1}. -/
theorem C5_direction_field_out_of_range :
    ((find_crossings (0, 0, 0) (1, 1, 0) [(0, 1, 1), (1, 0, 1)] [2] 0 0 10 1).getD 0
        (0, 0, 0, 0)).2.2.2 = 2 ∧
    ((2:ℝ) ≠ -1 ∧ (2:ℝ) ≠ 0 ∧ (2:ℝ) ≠ 1) := by
  rw [fc_eval_first_segment]
  norm_num [List.getD]

lemma rcl_eval :
    raw_cross_loop [[(0, 0, 0), (1, 1, 0), (2, 2, 0)], [(0, 1, 1), (1, 0, 1)]]
      [[2, 2], [2]] 10 1 [0, 3] false =
    some ([(0, 3, 0, 0)], [(3, 0, 0, 0)]) := by
  norm_num [raw_cross_loop, List.range_succ, List.getD, even_entries,
    odd_entries, fc_eval_first_segment, fc_eval_second_segment,
    -Prod.mk_zero_zero, -Prod.mk_one_one]
  exact List.cons_ne_nil _ _

/-- C2: `raw_cross_loop` overwrites its result variables on every query
segment instead of concatenating, so for a two-strand input whose only
crossing lies on the first query segment of the first strand, the
returned pair holds only the (all-zero, offset) rows of the last query
segment: the offset crossing record (1, 4, 0, 2) that the claimed
concatenation would contain is absent from the output. -/
theorem C2_returns_only_last_segment_records :
    raw_cross_loop [[(0, 0, 0), (1, 1, 0), (2, 2, 0)], [(0, 1, 1), (1, 0, 1)]]
      [[2, 2], [2]] 10 1 [0, 3] false =
      some ([(0, 3, 0, 0)], [(3, 0, 0, 0)]) ∧
    find_crossings (0, 0, 0) (1, 1, 0) [(0, 1, 1), (1, 0, 1)] [2] 0 0 10 1 =
      [(1, 1, 0, 2), (0, 0, 0, 0)] ∧
    ((1:ℝ), (4:ℝ), (0:ℝ), (2:ℝ)) ∉ [((0:ℝ), (3:ℝ), (0:ℝ), (0:ℝ))] := by
  refine ⟨rcl_eval, fc_eval_first_segment, ?_⟩
  norm_num

lemma sqrt_sixteen : Real.sqrt 16 = 4 := by
  rw [show (16:ℝ) = 4^2 by norm_num]
  exact Real.sqrt_sq (by norm_num)

lemma qd5_0 : query_distance (0, 0, 0)
    [(4, 0, 0), (4, 0, 0), (4, 0, 0), (4, 0, 0), (4, 0, 0)] 0 = 4 := by
  unfold query_distance
  norm_num [List.getD, sqrt_sixteen]

lemma qd5_3 : query_distance (0, 0, 0)
    [(4, 0, 0), (4, 0, 0), (4, 0, 0), (4, 0, 0), (4, 0, 0)] 3 = 4 := by
  unfold query_distance
  norm_num [List.getD, sqrt_sixteen]

lemma fc9_step1 :
    fcStep (0, 0, 0) (1, 0, 0)
      [(4, 0, 0), (4, 0, 0), (4, 0, 0), (4, 0, 0), (4, 0, 0)] [1, 1, 1, 1]
      0 0 1 2
      ⟨0, false, [(0,0,0,0), (0,0,0,0), (0,0,0,0), (0,0,0,0), (0,0,0,0)], []⟩ =
    ⟨3, true, [(0,0,0,0), (0,0,0,0), (0,0,0,0), (0,0,0,0), (0,0,0,0)], []⟩ := by
  unfold fcStep
  dsimp only
  rw [qd5_0]
  rw [if_neg (by norm_num), if_neg (by norm_num), if_pos rfl]
  norm_num
  decide

lemma fc9_step2 :
    fcStep (0, 0, 0) (1, 0, 0)
      [(4, 0, 0), (4, 0, 0), (4, 0, 0), (4, 0, 0), (4, 0, 0)] [1, 1, 1, 1]
      0 0 1 2
      ⟨3, true, [(0,0,0,0), (0,0,0,0), (0,0,0,0), (0,0,0,0), (0,0,0,0)], []⟩ =
    ⟨4, false, [(0,0,0,0), (0,0,0,0), (0,0,0,0), (0,0,0,0), (0,0,0,0)], []⟩ := by
  unfold fcStep
  dsimp only
  rw [qd5_3]
  rw [if_pos (Or.inr rfl)]
  norm_num [List.getD, do_vectors_intersect, cross_product,
    -Prod.mk_zero_zero, -Prod.mk_one_one]

lemma fc9_run :
    fcRun (0, 0, 0) (1, 0, 0)
      [(4, 0, 0), (4, 0, 0), (4, 0, 0), (4, 0, 0), (4, 0, 0)] [1, 1, 1, 1]
      0 0 1 2 =
    ⟨4, false, [(0,0,0,0), (0,0,0,0), (0,0,0,0), (0,0,0,0), (0,0,0,0)], []⟩ := by
  unfold fcRun
  rw [fcLoop, dif_pos (by norm_num)]
  rw [show (List.replicate (List.length
      [((4:ℝ), (0:ℝ), (0:ℝ)), (4, 0, 0), (4, 0, 0), (4, 0, 0), (4, 0, 0)])
      ((0:ℝ), (0:ℝ), (0:ℝ), (0:ℝ))) =
      [((0:ℝ),(0:ℝ),(0:ℝ),(0:ℝ)), (0,0,0,0), (0,0,0,0), (0,0,0,0), (0,0,0,0)]
    from by norm_num [List.replicate, -Prod.mk_zero_zero, -Prod.mk_one_one]]
  rw [fc9_step1]
  rw [fcLoop, dif_pos (by norm_num)]
  rw [fc9_step2]
  rw [fcLoop, dif_neg (by norm_num)]

/-- C9 counterexample: with `jump_mode = 2`, `max_segment_length = 1`
and five comparison points at planar distance 4, the run of
`find_crossings` first jumps from index 0 to index 3 (advance
`max(1, ⌊4/1⌋ - 1) = 3`), and then — although the distance at index 3
is still 4 ≥ 2·max_segment_length — advances by exactly 1 (because
`already_jumped` is set), not by the claimed `max(1, ⌊4/1⌋ - 1) = 3`. -/
theorem C9_counterexample :
    fcStep (0, 0, 0) (1, 0, 0)
        [(4, 0, 0), (4, 0, 0), (4, 0, 0), (4, 0, 0), (4, 0, 0)] [1, 1, 1, 1]
        0 0 1 2
        ⟨0, false, [(0,0,0,0), (0,0,0,0), (0,0,0,0), (0,0,0,0), (0,0,0,0)], []⟩ =
      ⟨3, true, [(0,0,0,0), (0,0,0,0), (0,0,0,0), (0,0,0,0), (0,0,0,0)], []⟩ ∧
    2 * ((1:ℤ) : ℝ) ≤ query_distance (0, 0, 0)
      [(4, 0, 0), (4, 0, 0), (4, 0, 0), (4, 0, 0), (4, 0, 0)] 3 ∧
    (fcStep (0, 0, 0) (1, 0, 0)
        [(4, 0, 0), (4, 0, 0), (4, 0, 0), (4, 0, 0), (4, 0, 0)] [1, 1, 1, 1]
        0 0 1 2
        ⟨3, true, [(0,0,0,0), (0,0,0,0), (0,0,0,0), (0,0,0,0), (0,0,0,0)], []⟩).i =
      3 + 1 ∧
    (max 1 (⌊query_distance (0, 0, 0)
        [(4, 0, 0), (4, 0, 0), (4, 0, 0), (4, 0, 0), (4, 0, 0)] 3 /
          ((1:ℤ) : ℝ)⌋ - 1)).toNat = 3 ∧
    (3:ℕ) + 1 ≠ 3 + 3 ∧
    fcRun (0, 0, 0) (1, 0, 0)
        [(4, 0, 0), (4, 0, 0), (4, 0, 0), (4, 0, 0), (4, 0, 0)] [1, 1, 1, 1]
        0 0 1 2 =
      ⟨4, false, [(0,0,0,0), (0,0,0,0), (0,0,0,0), (0,0,0,0), (0,0,0,0)], []⟩ := by
  refine ⟨fc9_step1, ?_, ?_, ?_, by norm_num, fc9_run⟩
  · rw [qd5_3]; norm_num
  · rw [fc9_step2]
  · rw [qd5_3]; norm_num; decide

/-- C9 amended: in `jump_mode = 2`, when the distance from the query
point to the current comparison point is at least
`2 * max_segment_length` **and the previous iteration did not itself
jump** (`already_jumped` clear), the comparison index advances by
exactly `max(1, ⌊distance / max_segment_length⌋ - 1)`; immediately
after a jump the index advances by 1 regardless of the distance. -/
theorem C9_jump2_advance (v dv : P3) (points : List P3) (sls : List ℝ)
    (ci compi msl : ℤ) (s : FCState) (_hmsl : 0 < msl) (haj : s.aj = false)
    (hfar : ¬ query_distance v points s.i < 2 * (msl : ℝ)) :
    (fcStep v dv points sls ci compi msl 2 s).i =
      s.i + (max 1 (⌊query_distance v points s.i / (msl : ℝ)⌋ - 1)).toNat ∧
    (fcStep v dv points sls ci compi msl 2 s).aj = true := by
  unfold fcStep
  dsimp only
  rw [if_neg (by simp [haj, hfar]), if_neg (by norm_num), if_pos rfl]
  refine ⟨?_, rfl⟩
  have hmax : (if (⌊query_distance v points s.i / (msl : ℝ)⌋ - 1) < 1 then 1
      else ⌊query_distance v points s.i / (msl : ℝ)⌋ - 1) =
      max 1 (⌊query_distance v points s.i / (msl : ℝ)⌋ - 1) := by
    split <;> omega
  rw [hmax]

/-- Witness for the amended C9 at the first step of the concrete run:
advance is `max(1, ⌊4/1⌋ - 1) = 3`. -/
theorem C9_witness :
    (0:ℤ) < 1 ∧
    (fcStep (0, 0, 0) (1, 0, 0)
        [(4, 0, 0), (4, 0, 0), (4, 0, 0), (4, 0, 0), (4, 0, 0)] [1, 1, 1, 1]
        0 0 1 2
        ⟨0, false, [(0,0,0,0), (0,0,0,0), (0,0,0,0), (0,0,0,0), (0,0,0,0)], []⟩).i =
      0 + (max 1 (⌊query_distance (0, 0, 0)
        [(4, 0, 0), (4, 0, 0), (4, 0, 0), (4, 0, 0), (4, 0, 0)] 0 /
          ((1:ℤ) : ℝ)⌋ - 1)).toNat := by
  refine ⟨by norm_num, ?_⟩
  have h := C9_jump2_advance (0, 0, 0) (1, 0, 0)
    [(4, 0, 0), (4, 0, 0), (4, 0, 0), (4, 0, 0), (4, 0, 0)] [1, 1, 1, 1]
    0 0 1
    ⟨0, false, [(0,0,0,0), (0,0,0,0), (0,0,0,0), (0,0,0,0), (0,0,0,0)], []⟩
    (by norm_num) rfl
    (by show ¬ query_distance (0, 0, 0)
          [(4, 0, 0), (4, 0, 0), (4, 0, 0), (4, 0, 0), (4, 0, 0)] 0 < 2 * ((1:ℤ) : ℝ)
        rw [qd5_0]; norm_num)
  exact h.1

lemma sqrt_ten_thousand : Real.sqrt 10000 = 100 := by
  rw [show (10000:ℝ) = 100^2 by norm_num]
  exact Real.sqrt_sq (by norm_num)

lemma qd100_0 : query_distance (0, 0, 0)
    [(100, 0, 0), (100, 0, 0), (100, 0, 0)] 0 = 100 := by
  unfold query_distance
  norm_num [List.getD, sqrt_ten_thousand]

lemma qd100_1 : query_distance (0, 0, 0)
    [(100, 0, 0), (100, 0, 0), (100, 0, 0)] 1 = 100 := by
  unfold query_distance
  norm_num [List.getD, sqrt_ten_thousand]

/-- The accumulation loop run on a two-entry `segment_lengths` with a
three-point comparison strand: the guard `i < len(points)` lets the
loop read index 2, one past the end of `segment_lengths`. -/
lemma acc_eval : accumulate_jumps [1, 1] 3 99 0 0 = (3, 3, [0, 1, 2]) := by
  rw [accumulate_jumps, dif_pos (by norm_num)]
  rw [accumulate_jumps, dif_pos (by norm_num [List.getD])]
  rw [accumulate_jumps, dif_pos (by norm_num [List.getD])]
  rw [accumulate_jumps, dif_neg (by norm_num [List.getD])]

lemma fc10_step1 :
    fcStep (0, 0, 0) (1, 0, 0) [(100, 0, 0), (100, 0, 0), (100, 0, 0)] [1, 1]
      0 0 1 1 ⟨0, false, [(0,0,0,0), (0,0,0,0), (0,0,0,0)], []⟩ =
    ⟨1, true, [(0,0,0,0), (0,0,0,0), (0,0,0,0)], [0, 1, 2]⟩ := by
  unfold fcStep
  dsimp only
  rw [qd100_0]
  rw [if_neg (by norm_num), if_neg (by norm_num), if_neg (by norm_num)]
  rw [show (100:ℝ) - ((1:ℤ) : ℝ) = 99 by norm_num]
  rw [show List.length [((100:ℝ), (0:ℝ), (0:ℝ)), (100, 0, 0), (100, 0, 0)] = 3
    from rfl]
  rw [acc_eval]
  norm_num

lemma fc10_step2 :
    fcStep (0, 0, 0) (1, 0, 0) [(100, 0, 0), (100, 0, 0), (100, 0, 0)] [1, 1]
      0 0 1 1 ⟨1, true, [(0,0,0,0), (0,0,0,0), (0,0,0,0)], [0, 1, 2]⟩ =
    ⟨2, false, [(0,0,0,0), (0,0,0,0), (0,0,0,0)], [0, 1, 2]⟩ := by
  unfold fcStep
  dsimp only
  rw [qd100_1]
  rw [if_pos (Or.inr rfl)]
  norm_num [List.getD, do_vectors_intersect, cross_product,
    -Prod.mk_zero_zero, -Prod.mk_one_one]

lemma fc10_run :
    fcRun (0, 0, 0) (1, 0, 0) [(100, 0, 0), (100, 0, 0), (100, 0, 0)] [1, 1]
      0 0 1 1 =
    ⟨2, false, [(0,0,0,0), (0,0,0,0), (0,0,0,0)], [0, 1, 2]⟩ := by
  unfold fcRun
  rw [fcLoop, dif_pos (by norm_num)]
  rw [show (List.replicate (List.length
      [((100:ℝ), (0:ℝ), (0:ℝ)), (100, 0, 0), (100, 0, 0)])
      ((0:ℝ), (0:ℝ), (0:ℝ), (0:ℝ))) =
      [((0:ℝ),(0:ℝ),(0:ℝ),(0:ℝ)), (0,0,0,0), (0,0,0,0)]
    from by norm_num [List.replicate, -Prod.mk_zero_zero, -Prod.mk_one_one]]
  rw [fc10_step1]
  rw [fcLoop, dif_pos (by norm_num)]
  rw [fc10_step2]
  rw [fcLoop, dif_neg (by norm_num)]

/-- C10: in the default jump mode, with a three-point comparison strand
(so `segment_lengths` has 2 entries) all far from the query point, the
accumulation loop of `find_crossings` reads `segment_lengths[2]` — one
index past the end of the array — because its guard checks
`i < len(points)` rather than `i < len(segment_lengths)`. -/
theorem C10_reads_past_end :
    2 ∈ (fcRun (0, 0, 0) (1, 0, 0) [(100, 0, 0), (100, 0, 0), (100, 0, 0)]
        [1, 1] 0 0 1 1).reads ∧
    List.length [(1:ℝ), 1] =
      List.length [((100:ℝ), (0:ℝ), (0:ℝ)), (100, 0, 0), (100, 0, 0)] - 1 ∧
    ¬ (2 < List.length [(1:ℝ), 1]) := by
  refine ⟨?_, by norm_num, by norm_num⟩
  rw [fc10_run]
  norm_num

/-! ## `rotate_to_top` (rotation.py) -/

/-- `first_rotation` from rotation.py: the azimuthal rotation about the
polar axis by the angle `chi`. -/
noncomputable def first_rotation (chi : ℝ) : Matrix (Fin 3) (Fin 3) ℝ :=
  !![Real.cos chi, -Real.sin chi, 0;
     Real.sin chi, Real.cos chi, 0;
     0, 0, 1]

/-- `second_rotation` from rotation.py: the polar rotation in the x-z
plane by the angle `alpha`. -/
noncomputable def second_rotation (alpha : ℝ) : Matrix (Fin 3) (Fin 3) ℝ :=
  !![Real.cos alpha, 0, -Real.sin alpha;
     0, 1, 0;
     Real.sin alpha, 0, Real.cos alpha]

/-- `rotate_to_top` from rotation.py: with `chi = -1 * phi` and
`alpha = theta`, returns `second_rotation.dot(first_rotation)`. -/
noncomputable def rotate_to_top (theta phi : ℝ) : Matrix (Fin 3) (Fin 3) ℝ :=
  second_rotation theta * first_rotation (-1 * phi)

/-- Modelled from the spec: "the unit direction described by (θ, φ)" —
the standard spherical unit vector with polar angle θ from the pole
axis and azimuth φ (the caller of `rotate_to_top` lives outside src/). -/
noncomputable def sphere_direction (theta phi : ℝ) : Fin 3 → ℝ :=
  ![Real.sin theta * Real.cos phi, Real.sin theta * Real.sin phi,
    Real.cos theta]

lemma rotate_to_top_entries (θ φ : ℝ) :
    rotate_to_top θ φ =
      !![Real.cos θ * Real.cos φ, Real.cos θ * Real.sin φ, -Real.sin θ;
         -Real.sin φ, Real.cos φ, 0;
         Real.sin θ * Real.cos φ, Real.sin θ * Real.sin φ, Real.cos θ] := by
  rw [rotate_to_top, second_rotation, first_rotation, Matrix.mul_fin_three]
  ext i j
  fin_cases i <;> fin_cases j <;>
    simp [Real.cos_neg, Real.sin_neg]

/-- C7: for any (θ, φ) the matrix returned by `rotate_to_top` is
orthonormal (`Mᵀ M = 1`) with determinant +1, equals the polar rotation
by θ composed (on the right) with the azimuthal rotation by -φ, and
maps the unit direction described by (θ, φ) onto the pole axis
(0, 0, 1). -/
theorem C7_rotate_to_top_rotation_matrix (θ φ : ℝ) :
    (rotate_to_top θ φ).transpose * rotate_to_top θ φ = 1 ∧
    (rotate_to_top θ φ).det = 1 ∧
    rotate_to_top θ φ = second_rotation θ * first_rotation (-φ) ∧
    (rotate_to_top θ φ).mulVec (sphere_direction θ φ) = ![0, 0, 1] := by
  refine ⟨?_, ?_, ?_, ?_⟩
  · rw [rotate_to_top_entries]
    ext i j
    fin_cases i <;> fin_cases j <;>
      simp [Matrix.mul_apply, Fin.sum_univ_three, Matrix.transpose,
        Matrix.vecHead, Matrix.vecTail, Matrix.of_apply, Matrix.one_apply] <;>
      first
        | ring1
        | linear_combination Real.sin_sq_add_cos_sq θ
        | linear_combination (Real.cos φ)^2 * Real.sin_sq_add_cos_sq θ +
            Real.sin_sq_add_cos_sq φ
        | linear_combination (Real.sin φ)^2 * Real.sin_sq_add_cos_sq θ +
            Real.sin_sq_add_cos_sq φ
        | linear_combination (Real.cos φ * Real.sin φ) * Real.sin_sq_add_cos_sq θ
  · rw [rotate_to_top_entries, Matrix.det_fin_three]
    simp
    first
      | ring1
      | linear_combination Real.sin_sq_add_cos_sq θ
      | linear_combination Real.sin_sq_add_cos_sq φ
      | linear_combination ((Real.cos φ)^2 + (Real.sin φ)^2) *
          Real.sin_sq_add_cos_sq θ + Real.sin_sq_add_cos_sq φ
  · rw [rotate_to_top, neg_one_mul]
  · rw [rotate_to_top_entries]
    funext i
    fin_cases i <;>
      simp [sphere_direction, Matrix.mulVec, Matrix.dotProduct,
        Fin.sum_univ_three] <;>
      first
        | ring1
        | linear_combination (Real.cos θ * Real.sin θ) * Real.sin_sq_add_cos_sq φ
        | linear_combination (-(Real.cos θ) * Real.sin θ) * Real.sin_sq_add_cos_sq φ
        | linear_combination (Real.sin θ)^2 * Real.sin_sq_add_cos_sq φ +
            Real.sin_sq_add_cos_sq θ

end Pyknot
